import Mathlib

/-!
The debug facade of `debug.h`

`debug.h` is a header of function-like definitions selected by three
preprocessor switches: `DEBUG_PRINT`, `__PRINTF_H__` and `_Time_h`.

The embedding has three layers.

* `defn` gives, for one build configuration and one facade call, the
  replacement list written in the header (or `none` when the header leaves
  the name undefined in that configuration).  Each alternative of `defn`
  is one `#define` line of the header.
* `expandCall` / `preprocess` / `build` rescan replacement lists until only
  calls of collaborators remain, and place the resulting statements at the
  call site the way the C grammar does.
* `eval` / `exec` / `run` execute the preprocessed statements on a machine
  that records the program state, the collaborator calls, the characters
  written to the sink and the values yielded by argument expressions.
-/

namespace DebugFacade

/-! ## Build configuration -/

/-- The three switches tested by the `#ifdef` lines of the header. -/
structure Config where
  /-- `#ifdef DEBUG_PRINT` (line 2): ACTIVE when set, INERT otherwise. -/
  DEBUG_PRINT : Bool
  /-- `#ifdef __PRINTF_H__` (lines 3 and 10): peripheral diagnostics. -/
  __PRINTF_H__ : Bool
  /-- `#ifdef _Time_h` (line 13): calendar/time. -/
  _Time_h : Bool
  deriving DecidableEq

/-! ## Values and expressions -/

/-- Printable values: integers (also timestamps, `time_t` is an integer
type), text and single characters. -/
inductive Val where
  | int (n : Int)
  | str (s : String)
  | chr (c : Char)
  deriving DecidableEq

/-- The six accessors of the calendar/time source used by the header. -/
inductive Field where
  | year | month | day | hour | minute | second
  deriving DecidableEq

/-- The calendar/time source: given a timestamp it yields each field as an
integer.  It is a collaborator of the header and is taken as a parameter. -/
structure Calendar where
  year : Int → Int
  month : Int → Int
  day : Int → Int
  hour : Int → Int
  minute : Int → Int
  second : Int → Int

/-- Accessor selected by a `Field`. -/
def Calendar.get (cal : Calendar) : Field → Int → Int
  | .year => cal.year
  | .month => cal.month
  | .day => cal.day
  | .hour => cal.hour
  | .minute => cal.minute
  | .second => cal.second

/-- Expressions over a program state `σ`.  `usr run` is an expression
written by the caller of the facade: evaluating it yields a value and may
change the program state.  The other forms are the ones the header itself
writes around its parameters. -/
inductive Expr (σ : Type) where
  | usr (run : σ → Val × σ)
  | int (n : Int)
  | str (s : String)
  | chr (c : Char)
  | field (f : Field) (e : Expr σ)
  | lt (a b : Expr σ)
  | cond (c a b : Expr σ)

/-! ## Facade calls and the header -/

/-- The collaborators the header forwards to. -/
inductive Collab where
  /-- `Serial.begin` -/
  | Serial_begin
  /-- `printf_begin` -/
  | printf_begin
  /-- `Serial.print` -/
  | Serial_print
  /-- `Serial.println` -/
  | Serial_println
  /-- `radio.printDetails`, the receiver passed as the only argument -/
  | printDetails
  /-- `delay` -/
  | delay
  deriving DecidableEq

/-- The nine names the header defines. -/
inductive Op where
  | debug_begin_nrf24 | debug_begin | debug_print | debug_println
  | debug_nrf24 | debug_date | debug_time | debug_datetime | debug_delay
  deriving DecidableEq

/-- A facade call with its arguments, one alternative per parameter list of
the header: `()`, `(args...)`, `(radio)`, `(t)`, `(ms)`. -/
inductive Call (σ : Type) where
  | debug_begin_nrf24
  | debug_begin
  | debug_print (args : List (Expr σ))
  | debug_println (args : List (Expr σ))
  | debug_nrf24 (radio : Expr σ)
  | debug_date (t : Expr σ)
  | debug_time (t : Expr σ)
  | debug_datetime (t : Expr σ)
  | debug_delay (ms : Expr σ)

/-- Name of a facade call. -/
def Call.op {σ : Type} : Call σ → Op
  | .debug_begin_nrf24 => .debug_begin_nrf24
  | .debug_begin => .debug_begin
  | .debug_print _ => .debug_print
  | .debug_println _ => .debug_println
  | .debug_nrf24 _ => .debug_nrf24
  | .debug_date _ => .debug_date
  | .debug_time _ => .debug_time
  | .debug_datetime _ => .debug_datetime
  | .debug_delay _ => .debug_delay

/-- One `;`-separated element of a replacement list: a call of a
collaborator, or a call of another facade name (to be rescanned). -/
inductive Item (σ : Type) where
  | collab (f : Collab) (args : List (Expr σ))
  | facade (c : Call σ)

/-- The header.  `defn cfg c` is the replacement list of the call `c` in
the configuration `cfg`, with the arguments of `c` already put in place of
the parameters; `none` when no `#define` for the name is active.  The
elements of a list are separated by `;` in the header and the last one
carries no `;` of its own. -/
def defn {σ : Type} (cfg : Config) : Call σ → Option (List (Item σ))
  | .debug_begin_nrf24 =>
    if cfg.DEBUG_PRINT then
      if cfg.__PRINTF_H__ then some [.collab .printf_begin []] else none
    else some []
  | .debug_begin =>
    if cfg.DEBUG_PRINT then
      some [.collab .Serial_begin [.int 9600], .facade .debug_begin_nrf24]
    else some []
  | .debug_print args =>
    if cfg.DEBUG_PRINT then some [.collab .Serial_print args] else some []
  | .debug_println args =>
    if cfg.DEBUG_PRINT then some [.collab .Serial_println args] else some []
  | .debug_nrf24 radio =>
    if cfg.DEBUG_PRINT then
      if cfg.__PRINTF_H__ then some [.collab .printDetails [radio]] else none
    else some []
  | .debug_date t =>
    if cfg.DEBUG_PRINT then
      if cfg._Time_h then
        some [ .facade (.debug_print [.field .year t]),
               .facade (.debug_print [.str "-"]),
               .facade (.debug_print [.cond (.lt (.field .month t) (.int 10)) (.str "0") (.str "")]),
               .facade (.debug_print [.field .month t]),
               .facade (.debug_print [.str "-"]),
               .facade (.debug_print [.cond (.lt (.field .day t) (.int 10)) (.str "0") (.str "")]),
               .facade (.debug_print [.field .day t]) ]
      else none
    else some []
  | .debug_time t =>
    if cfg.DEBUG_PRINT then
      if cfg._Time_h then
        some [ .facade (.debug_print [.cond (.lt (.field .hour t) (.int 10)) (.str "0") (.str "")]),
               .facade (.debug_print [.field .hour t]),
               .facade (.debug_print [.chr ':']),
               .facade (.debug_print [.cond (.lt (.field .minute t) (.int 10)) (.str "0") (.str "")]),
               .facade (.debug_print [.field .minute t]),
               .facade (.debug_print [.chr ':']),
               .facade (.debug_print [.cond (.lt (.field .second t) (.int 10)) (.str "0") (.str "")]),
               .facade (.debug_print [.field .second t]) ]
      else none
    else some []
  | .debug_datetime t =>
    if cfg.DEBUG_PRINT then
      if cfg._Time_h then
        some [ .facade (.debug_date t),
               .facade (.debug_print [.chr ' ']),
               .facade (.debug_time t) ]
      else none
    else some []
  | .debug_delay ms =>
    if cfg.DEBUG_PRINT then
      if cfg._Time_h then some [.collab .delay [ms]] else none
    else some []

/-! ## Preprocessing -/

/-- Statements left after preprocessing. -/
inductive Stmt (σ : Type) where
  /-- `f(args);` for a collaborator `f` -/
  | collab (f : Collab) (args : List (Expr σ))
  /-- `e;` for any other expression -/
  | plain (e : Expr σ)
  /-- `;` -/
  | empty
  /-- `if (c) s` without braces -/
  | ifThen (c : Expr σ) (s : Stmt σ)

/-- Why a translation unit that uses the facade does not build. -/
inductive BuildError where
  /-- a facade name is used where the header defines nothing for it -/
  | unresolved (name : Op)
  /-- rescanning nested deeper than the bound given to `expandCall` -/
  | depth
  deriving DecidableEq

/-- Append the statements of two expansions, the first error winning. -/
def joinExpansions {σ : Type}
    (a b : Except BuildError (List (Stmt σ))) : Except BuildError (List (Stmt σ)) :=
  match a with
  | .error e => .error e
  | .ok xs =>
    match b with
    | .error e => .error e
    | .ok ys => .ok (xs ++ ys)

/-- Full expansion of one facade call: replace it by its replacement list
and rescan the facade calls in that list, `fuel` levels deep.  What is left
is the list of collaborator calls, in the order written. -/
def expandCall {σ : Type} (cfg : Config) : Nat → Call σ → Except BuildError (List (Stmt σ))
  | 0, _ => .error .depth
  | fuel + 1, c =>
    match defn cfg c with
    | none => .error (.unresolved c.op)
    | some body =>
      body.foldr
        (fun it acc =>
          joinExpansions
            (match it with
             | .collab f args => .ok [Stmt.collab f args]
             | .facade d => expandCall cfg fuel d)
            acc)
        (.ok [])

/-- Rescanning depth used by `preprocess`; the header nests three deep
(`debug_datetime` → `debug_date` → `debug_print`). -/
def rescanDepth : Nat := 4

/-- Source statements of a program that uses the facade. -/
inductive Src (σ : Type) where
  /-- `debug_xxx(args);` -/
  | facade (c : Call σ)
  /-- `e;` for an expression that is not a facade call -/
  | plain (e : Expr σ)
  /-- `;` -/
  | empty
  /-- `if (c) s` without braces -/
  | ifThen (c : Expr σ) (s : Src σ)

/-- Preprocess one source statement.  A facade call followed by `;`
becomes its expansion with that `;` closing the last element, so an empty
expansion leaves the statement `;`.  In `if (c) s` the condition is
followed by the text of `s` after expansion, and the C grammar gives the
`if` the first statement of that text; the remaining ones follow the
`if`. -/
def preprocess {σ : Type} (cfg : Config) : Src σ → Except BuildError (List (Stmt σ))
  | .facade c =>
    match expandCall cfg rescanDepth c with
    | .error e => .error e
    | .ok [] => .ok [.empty]
    | .ok (s :: rest) => .ok (s :: rest)
  | .plain e => .ok [.plain e]
  | .empty => .ok [.empty]
  | .ifThen c s =>
    match preprocess cfg s with
    | .error e => .error e
    | .ok [] => .ok [.ifThen c .empty]
    | .ok (first :: rest) => .ok (.ifThen c first :: rest)

/-- Preprocess a sequence of source statements. -/
def build {σ : Type} (cfg : Config) : List (Src σ) → Except BuildError (List (Stmt σ))
  | [] => .ok []
  | s :: rest => joinExpansions (preprocess cfg s) (build cfg rest)

/-! ## Execution -/

/-- One call of a collaborator with the values of its arguments. -/
structure Event where
  callee : Collab
  args : List Val
  deriving DecidableEq

/-- The machine a program runs on. -/
structure Machine (σ : Type) where
  /-- state of the program proper -/
  prog : σ
  /-- collaborator calls made so far, oldest first -/
  trace : List Event
  /-- characters written to the character-output sink so far -/
  sink : List Char
  /-- values yielded so far by the evaluations of caller-written
  expressions, oldest first (one entry per evaluation) -/
  evals : List Val

/-- Machine at program start. -/
def Machine.start {σ : Type} (s : σ) : Machine σ :=
  { prog := s, trace := [], sink := [], evals := [] }

/-- Integer reading of a value where C wants an integer: characters are
integers, text is not. -/
def Val.asInt : Val → Option Int
  | .int n => some n
  | .chr c => some (c.toNat : Int)
  | .str _ => none

/-- Evaluate an expression.  `none` stands for an expression the compiler
rejects (text where an integer is required). -/
def eval {σ : Type} (cal : Calendar) : Expr σ → Machine σ → Option (Val × Machine σ)
  | .usr run, m =>
    let r := run m.prog
    some (r.1, { m with prog := r.2, evals := m.evals ++ [r.1] })
  | .int n, m => some (.int n, m)
  | .str s, m => some (.str s, m)
  | .chr c, m => some (.chr c, m)
  | .field f e, m =>
    match eval cal e m with
    | none => none
    | some (v, m1) =>
      match v.asInt with
      | none => none
      | some t => some (.int (cal.get f t), m1)
  | .lt a b, m =>
    match eval cal a m with
    | none => none
    | some (va, m1) =>
      match eval cal b m1 with
      | none => none
      | some (vb, m2) =>
        match va.asInt, vb.asInt with
        | some x, some y => some (.int (if x < y then 1 else 0), m2)
        | _, _ => none
  | .cond c a b, m =>
    match eval cal c m with
    | none => none
    | some (vc, m1) =>
      match vc.asInt with
      | none => none
      | some n => if n ≠ 0 then eval cal a m1 else eval cal b m1

/-- Evaluate an argument list, left to right. -/
def evalArgs {σ : Type} (cal : Calendar) : List (Expr σ) → Machine σ → Option (List Val × Machine σ)
  | [], m => some ([], m)
  | e :: es, m =>
    match eval cal e m with
    | none => none
    | some (v, m1) =>
      match evalArgs cal es m1 with
      | none => none
      | some (vs, m2) => some (v :: vs, m2)

/-- Character for a decimal digit, `'0' + d`. -/
def digitChar (d : Nat) : Char := Char.ofNat (48 + d)

/-- Digit loop of the sink for base ten: least significant digit first,
each new digit put in front of the ones produced so far, until the
quotient is zero. -/
def printNumberLoop : Nat → Nat → List Char → List Char
  | 0, _, acc => acc
  | fuel + 1, n, acc =>
    if n / 10 = 0 then digitChar (n % 10) :: acc
    else printNumberLoop fuel (n / 10) (digitChar (n % 10) :: acc)

/-- Decimal digits of a natural number as written by the sink. -/
def printNumber (n : Nat) : List Char := printNumberLoop (n + 1) n []

/-- Modelled from the spec: the `write(value)` operation of the
character-output sink, which is not part of this repository.  A value is
forwarded verbatim: text as its characters, a character as itself, an
integer in decimal with a leading `-` when negative. -/
def printVal : Val → List Char
  | .int n => if n < 0 then '-' :: printNumber n.natAbs else printNumber n.toNat
  | .str s => s.toList
  | .chr c => [c]

/-- Modelled from the spec: what a call of `write` or `write_line` of the
sink sends out.  Only the one-value forms of the spec are modelled (and
`write_line` of nothing); `none` for every other argument list of these
two.  The other collaborators write no character the header determines
(the text of the radio dump is the radio driver's; the call is recorded as
an event). -/
def sinkWrite : Collab → List Val → Option (List Char)
  | .Serial_print, [v] => some (printVal v)
  | .Serial_println, [v] => some (printVal v ++ ['\r', '\n'])
  | .Serial_println, [] => some ['\r', '\n']
  | .Serial_print, _ => none
  | .Serial_println, _ => none
  | _, _ => some []

/-- Execute one preprocessed statement.  A collaborator call evaluates its
arguments, is recorded in the trace, and for the two write operations of
the sink appends the written characters. -/
def exec {σ : Type} (cal : Calendar) : Stmt σ → Machine σ → Option (Machine σ)
  | .collab f args, m =>
    match evalArgs cal args m with
    | none => none
    | some (vs, m1) =>
      match sinkWrite f vs with
      | none => none
      | some out =>
        some { m1 with trace := m1.trace ++ [⟨f, vs⟩], sink := m1.sink ++ out }
  | .plain e, m =>
    match eval cal e m with
    | none => none
    | some (_, m1) => some m1
  | .empty, m => some m
  | .ifThen c s, m =>
    match eval cal c m with
    | none => none
    | some (v, m1) =>
      match v.asInt with
      | none => none
      | some n => if n ≠ 0 then exec cal s m1 else some m1

/-- Execute statements in order. -/
def execAll {σ : Type} (cal : Calendar) : List (Stmt σ) → Machine σ → Option (Machine σ)
  | [], m => some m
  | s :: rest, m =>
    match exec cal s m with
    | none => none
    | some m1 => execAll cal rest m1

/-- Build a program in a configuration and run it; `none` when it does not
build or an expression is rejected. -/
def run {σ : Type} (cal : Calendar) (cfg : Config) (p : List (Src σ)) (m : Machine σ) :
    Option (Machine σ) :=
  match build cfg p with
  | .error _ => none
  | .ok ss => execAll cal ss m

/-- Characters a program has written to the sink when started in program
state `s` with nothing written yet; `none` when it does not build or run. -/
def output {σ : Type} (cal : Calendar) (cfg : Config) (p : List (Src σ)) (s : σ) :
    Option (List Char) :=
  (run cal cfg p (Machine.start s)).map (fun m => m.sink)

/-! ## Notions used to state the properties -/

/-- The expression `e` evaluates to the timestamp `t` wherever it is
evaluated. -/
def Yields {σ : Type} (cal : Calendar) (e : Expr σ) (t : Int) : Prop :=
  ∀ m : Machine σ, ∃ m1, eval cal e m = some (Val.int t, m1)

/-- The statement `s` runs from every machine and appends exactly `out` to
the sink. -/
def Emits {σ : Type} (cal : Calendar) (s : Stmt σ) (out : List Char) : Prop :=
  ∀ m : Machine σ, ∃ m1, exec cal s m = some m1 ∧ m1.sink = m.sink ++ out

/-- The statements `ss` run from every machine and append exactly `out` to
the sink. -/
def EmitsAll {σ : Type} (cal : Calendar) (ss : List (Stmt σ)) (out : List Char) : Prop :=
  ∀ m : Machine σ, ∃ m1, execAll cal ss m = some m1 ∧ m1.sink = m.sink ++ out

/-- Spec wording: a field written as two decimal digits, with a leading
`0` when the field is below 10. -/
def specTwoDigits (n : Nat) : List Char :=
  if n < 10 then ['0', digitChar n] else [digitChar (n / 10), digitChar (n % 10)]

/-- Spec wording: the four decimal digits `YYYY` of a year. -/
def specYear (y : Nat) : List Char :=
  [digitChar (y / 1000), digitChar (y / 100 % 10), digitChar (y / 10 % 10), digitChar (y % 10)]

/-- Spec wording: `YYYY-MM-DD`. -/
def specDate (y m d : Nat) : List Char :=
  specYear y ++ '-' :: specTwoDigits m ++ '-' :: specTwoDigits d

/-- Spec wording: `HH:MM:SS`. -/
def specTime (h mi s : Nat) : List Char :=
  specTwoDigits h ++ ':' :: specTwoDigits mi ++ ':' :: specTwoDigits s

/-- Spec wording: the same program with every facade call site removed;
the `;` that followed the call stays. -/
def removeCallSites {σ : Type} : Src σ → Src σ
  | .facade _ => .empty
  | .plain e => .plain e
  | .empty => .empty
  | .ifThen c s => .ifThen c (removeCallSites s)

/-- A source statement contains no facade call. -/
def facadeFree {σ : Type} : Src σ → Bool
  | .facade _ => false
  | .plain _ => true
  | .empty => true
  | .ifThen _ s => facadeFree s

/-! ## A concrete calendar source

Used where a property is instantiated on concrete timestamps: seconds since
1970-01-01 00:00:00 split into the civil date and the time of day. -/

/-- Civil date `(year, month, day)` of a day number counted from
1970-01-01. -/
def civilFromDays (days : Int) : Int × Int × Int :=
  let z := days + 719468
  let era := z / 146097
  let doe := z % 146097
  let yoe := (doe - doe / 1460 + doe / 36524 - doe / 146096) / 365
  let doy := doe - (365 * yoe + yoe / 4 - yoe / 100)
  let mp := (5 * doy + 2) / 153
  let d := doy - (153 * mp + 2) / 5 + 1
  let m := if mp < 10 then mp + 3 else mp - 9
  let y := yoe + era * 400 + (if m ≤ 2 then 1 else 0)
  (y, m, d)

/-- Calendar source over seconds since 1970-01-01 00:00:00. -/
def epochCalendar : Calendar where
  year t := (civilFromDays (t / 86400)).1
  month t := (civilFromDays (t / 86400)).2.1
  day t := (civilFromDays (t / 86400)).2.2
  hour t := t % 86400 / 3600
  minute t := t % 3600 / 60
  second t := t % 60

/-! ## Argument expressions used in the statements -/

/-- A caller-written expression of timestamp type: each evaluation yields a
timestamp and the next program state. -/
def timestampExpr {σ : Type} (f : σ → Int × σ) : Expr σ :=
  .usr (fun s => (.int (f s).1, (f s).2))

/-- A clock read over a program state that is the clock: each evaluation
yields the current second and the clock has moved on by one second at the
next evaluation. -/
def tickingClock : Expr Int := timestampExpr (fun now => (now, now + 1))

/-- The text `"0"` or `""` chosen by `x < 10 ? "0" : ""`. -/
def padText (n : Int) : List Char := if n < 10 then ['0'] else []

/-- Text written by the seven statements of `debug_date` when the five
evaluations of its argument yield `t1 … t5`, in the order of evaluation. -/
def dateText (cal : Calendar) (t1 t2 t3 t4 t5 : Int) : List Char :=
  printVal (.int (cal.year t1)) ++ ("-".toList ++ (padText (cal.month t2) ++
    (printVal (.int (cal.month t3)) ++ ("-".toList ++ (padText (cal.day t4) ++
    printVal (.int (cal.day t5)))))))

/-- Text written by the eight statements of `debug_time` when the six
evaluations of its argument yield `t1 … t6`, in the order of evaluation. -/
def timeText (cal : Calendar) (t1 t2 t3 t4 t5 t6 : Int) : List Char :=
  padText (cal.hour t1) ++ (printVal (.int (cal.hour t2)) ++ (':' :: (padText (cal.minute t3) ++
    (printVal (.int (cal.minute t4)) ++ (':' :: (padText (cal.second t5) ++
    printVal (.int (cal.second t6))))))))

/-! ## Lemmas on the sink -/

theorem printNumberLoop_step (fuel n : Nat) (acc : List Char) (h : 0 < fuel) :
    printNumberLoop fuel n acc =
      if n / 10 = 0 then digitChar (n % 10) :: acc
      else printNumberLoop (fuel - 1) (n / 10) (digitChar (n % 10) :: acc) := by
  cases fuel with
  | zero => omega
  | succ k => simp [printNumberLoop]

/-- The digit loop never stops for lack of fuel: any fuel above `n` gives
the digits that `printNumber` gives. -/
theorem printNumberLoop_fuel (n : Nat) :
    ∀ (fuel : Nat) (acc : List Char), n < fuel →
      printNumberLoop fuel n acc = printNumberLoop (n + 1) n acc := by
  induction n using Nat.strong_induction_on with
  | _ n ih =>
    intro fuel acc hf
    rw [printNumberLoop_step fuel n acc (by omega), printNumberLoop_step (n + 1) n acc (by omega)]
    by_cases h0 : n / 10 = 0
    · simp [h0]
    · rw [if_neg h0, if_neg h0]
      have hlt : n / 10 < n := by omega
      rw [ih (n / 10) hlt (fuel - 1) _ (by omega), ih (n / 10) hlt (n + 1 - 1) _ (by omega)]

theorem printNumber_one_digit (n : Nat) (h : n < 10) : printNumber n = [digitChar n] := by
  have h0 : n / 10 = 0 := by omega
  have h1 : n % 10 = n := by omega
  rw [printNumber, printNumberLoop_step _ _ _ (by omega)]
  simp [h0, h1]

theorem printNumber_two_digits (n : Nat) (h1 : 10 ≤ n) (h2 : n < 100) :
    printNumber n = [digitChar (n / 10), digitChar (n % 10)] := by
  have a0 : ¬ n / 10 = 0 := by omega
  have a1 : n / 10 / 10 = 0 := by omega
  have a2 : n / 10 % 10 = n / 10 := by omega
  rw [printNumber, printNumberLoop_step _ _ _ (by omega), if_neg a0,
    printNumberLoop_step _ _ _ (by omega), if_pos a1, a2]

theorem printNumber_four_digits (n : Nat) (h1 : 1000 ≤ n) (h2 : n < 10000) :
    printNumber n =
      [digitChar (n / 1000), digitChar (n / 100 % 10), digitChar (n / 10 % 10),
        digitChar (n % 10)] := by
  have a0 : ¬ n / 10 = 0 := by omega
  have a1 : ¬ n / 10 / 10 = 0 := by omega
  have a2 : ¬ n / 10 / 10 / 10 = 0 := by omega
  have a3 : n / 10 / 10 / 10 / 10 = 0 := by omega
  have b1 : n / 10 / 10 % 10 = n / 100 % 10 := by omega
  have b2 : n / 10 / 10 / 10 % 10 = n / 1000 := by omega
  rw [printNumber, printNumberLoop_step _ _ _ (by omega), if_neg a0,
    printNumberLoop_step _ _ _ (by omega), if_neg a1,
    printNumberLoop_step _ _ _ (by omega), if_neg a2,
    printNumberLoop_step _ _ _ (by omega), if_pos a3, b1, b2]

theorem printVal_ofNat (n : Nat) : printVal (.int (n : Int)) = printNumber n := by
  simp [printVal]

/-! ## Lemmas on execution -/


theorem eval_sink_trace {σ : Type} (cal : Calendar) (e : Expr σ) :
    ∀ (m : Machine σ) (v : Val) (m' : Machine σ),
      eval cal e m = some (v, m') → m'.sink = m.sink ∧ m'.trace = m.trace := by
  induction e with
  | usr run =>
    intro m v m' h
    simp only [eval, Option.some.injEq, Prod.mk.injEq] at h
    obtain ⟨-, rfl⟩ := h
    exact ⟨rfl, rfl⟩
  | int n => intro m v m' h; simp only [eval, Option.some.injEq, Prod.mk.injEq] at h; obtain ⟨-, rfl⟩ := h; exact ⟨rfl, rfl⟩
  | str s => intro m v m' h; simp only [eval, Option.some.injEq, Prod.mk.injEq] at h; obtain ⟨-, rfl⟩ := h; exact ⟨rfl, rfl⟩
  | chr c => intro m v m' h; simp only [eval, Option.some.injEq, Prod.mk.injEq] at h; obtain ⟨-, rfl⟩ := h; exact ⟨rfl, rfl⟩
  | field f e ih =>
    intro m v m' h
    simp only [eval] at h
    cases he : eval cal e m with
    | none => simp [he] at h
    | some r =>
      obtain ⟨v1, m1⟩ := r
      simp only [he] at h
      cases hv : v1.asInt with
      | none => simp [hv] at h
      | some t =>
        simp only [hv, Option.some.injEq, Prod.mk.injEq] at h
        obtain ⟨-, rfl⟩ := h
        exact ih m v1 m1 he
  | lt a b iha ihb =>
    intro m v m' h
    simp only [eval] at h
    cases ha : eval cal a m with
    | none => simp [ha] at h
    | some ra =>
      obtain ⟨va, m1⟩ := ra
      simp only [ha] at h
      cases hb : eval cal b m1 with
      | none => simp [hb] at h
      | some rb =>
        obtain ⟨vb, m2⟩ := rb
        simp only [hb] at h
        have h1 := iha m va m1 ha
        have h2 := ihb m1 vb m2 hb
        cases hx : va.asInt with
        | none => simp [hx] at h
        | some x =>
          cases hy : vb.asInt with
          | none => simp [hx, hy] at h
          | some y =>
            simp only [hx, hy, Option.some.injEq, Prod.mk.injEq] at h
            obtain ⟨-, rfl⟩ := h
            exact ⟨h2.1.trans h1.1, h2.2.trans h1.2⟩
  | cond c a b ihc iha ihb =>
    intro m v m' h
    simp only [eval] at h
    cases hc : eval cal c m with
    | none => simp [hc] at h
    | some rc =>
      obtain ⟨vc, m1⟩ := rc
      simp only [hc] at h
      have h1 := ihc m vc m1 hc
      cases hn : vc.asInt with
      | none => simp [hn] at h
      | some n =>
        simp only [hn] at h
        by_cases hz : n ≠ 0
        · rw [if_pos hz] at h
          have h2 := iha m1 v m' h
          exact ⟨h2.1.trans h1.1, h2.2.trans h1.2⟩
        · rw [if_neg hz] at h
          have h2 := ihb m1 v m' h
          exact ⟨h2.1.trans h1.1, h2.2.trans h1.2⟩

theorem emitsAll_nil {σ : Type} (cal : Calendar) : EmitsAll cal ([] : List (Stmt σ)) [] := by
  intro m; exact ⟨m, rfl, by simp⟩

theorem emitsAll_cons {σ : Type} (cal : Calendar) {s : Stmt σ} {ss : List (Stmt σ)} {a b : List Char}
    (hs : Emits cal s a) (hss : EmitsAll cal ss b) : EmitsAll cal (s :: ss) (a ++ b) := by
  intro m
  obtain ⟨m1, h1, e1⟩ := hs m
  obtain ⟨m2, h2, e2⟩ := hss m1
  refine ⟨m2, ?_, ?_⟩
  · simp [execAll, h1, h2]
  · rw [e2, e1, List.append_assoc]

theorem execAll_append {σ : Type} (cal : Calendar) (xs ys : List (Stmt σ)) (m : Machine σ) :
    execAll cal (xs ++ ys) m = (execAll cal xs m).bind (execAll cal ys) := by
  induction xs generalizing m with
  | nil => rfl
  | cons x xs ih =>
    simp only [List.cons_append, execAll]
    cases exec cal x m with
    | none => rfl
    | some m1 => exact ih m1

theorem emitsAll_append {σ : Type} (cal : Calendar) {xs ys : List (Stmt σ)} {a b : List Char}
    (hx : EmitsAll cal xs a) (hy : EmitsAll cal ys b) : EmitsAll cal (xs ++ ys) (a ++ b) := by
  intro m
  obtain ⟨m1, h1, e1⟩ := hx m
  obtain ⟨m2, h2, e2⟩ := hy m1
  refine ⟨m2, ?_, ?_⟩
  · rw [execAll_append, h1]; exact h2
  · rw [e2, e1, List.append_assoc]

theorem emits_print_of_eval {σ : Type} (cal : Calendar) (e : Expr σ) (v : Val)
    (h : ∀ m : Machine σ, ∃ m', eval cal e m = some (v, m')) :
    Emits cal (.collab .Serial_print [e]) (printVal v) := by
  intro m
  obtain ⟨m1, h1⟩ := h m
  have hs := (eval_sink_trace cal e m v m1 h1).1
  refine ⟨{ m1 with trace := m1.trace ++ [⟨.Serial_print, [v]⟩],
                        sink := m1.sink ++ printVal v }, ?_, ?_⟩
  · simp only [exec, evalArgs, h1, sinkWrite]
  · simp [hs]

theorem emits_print_field {σ : Type} (cal : Calendar) (e : Expr σ) (t : Int) (f : Field)
    (h : Yields cal e t) :
    Emits cal (.collab .Serial_print [.field f e]) (printVal (.int (cal.get f t))) := by
  apply emits_print_of_eval
  intro m
  obtain ⟨m1, h1⟩ := h m
  exact ⟨m1, by simp [eval, h1, Val.asInt]⟩

theorem emits_print_pad {σ : Type} (cal : Calendar) (e : Expr σ) (t : Int) (f : Field)
    (h : Yields cal e t) :
    Emits cal (.collab .Serial_print [.cond (.lt (.field f e) (.int 10)) (.str "0") (.str "")])
      (if cal.get f t < 10 then ['0'] else []) := by
  by_cases hlt : cal.get f t < 10
  · rw [if_pos hlt]
    have := emits_print_of_eval cal
      (.cond (.lt (.field f e) (.int 10)) (.str "0") (.str "")) (.str "0") (by
        intro m
        obtain ⟨m1, h1⟩ := h m
        exact ⟨m1, by simp [eval, h1, Val.asInt, hlt]⟩)
    simpa [printVal] using this
  · rw [if_neg hlt]
    have := emits_print_of_eval cal
      (.cond (.lt (.field f e) (.int 10)) (.str "0") (.str "")) (.str "") (by
        intro m
        obtain ⟨m1, h1⟩ := h m
        exact ⟨m1, by simp [eval, h1, Val.asInt, hlt]⟩)
    simpa [printVal] using this

theorem emits_print_str {σ : Type} (cal : Calendar) (s : String) :
    Emits cal (.collab .Serial_print [(.str s : Expr σ)]) s.toList := by
  have := emits_print_of_eval cal (.str s : Expr σ) (.str s) (fun m => ⟨m, rfl⟩)
  simpa [printVal] using this

theorem emits_print_chr {σ : Type} (cal : Calendar) (c : Char) :
    Emits cal (.collab .Serial_print [(.chr c : Expr σ)]) [c] := by
  have := emits_print_of_eval cal (.chr c : Expr σ) (.chr c) (fun m => ⟨m, rfl⟩)
  simpa [printVal] using this

/-! ## Preprocessed form of the date and time operations -/

theorem build_debug_date {σ : Type} (printf : Bool) (e : Expr σ) :
    build ⟨true, printf, true⟩ [.facade (.debug_date e)] = .ok
      [ .collab .Serial_print [.field .year e],
        .collab .Serial_print [.str "-"],
        .collab .Serial_print [.cond (.lt (.field .month e) (.int 10)) (.str "0") (.str "")],
        .collab .Serial_print [.field .month e],
        .collab .Serial_print [.str "-"],
        .collab .Serial_print [.cond (.lt (.field .day e) (.int 10)) (.str "0") (.str "")],
        .collab .Serial_print [.field .day e] ] := rfl

theorem build_debug_time {σ : Type} (printf : Bool) (e : Expr σ) :
    build ⟨true, printf, true⟩ [.facade (.debug_time e)] = .ok
      [ .collab .Serial_print [.cond (.lt (.field .hour e) (.int 10)) (.str "0") (.str "")],
        .collab .Serial_print [.field .hour e],
        .collab .Serial_print [.chr ':'],
        .collab .Serial_print [.cond (.lt (.field .minute e) (.int 10)) (.str "0") (.str "")],
        .collab .Serial_print [.field .minute e],
        .collab .Serial_print [.chr ':'],
        .collab .Serial_print [.cond (.lt (.field .second e) (.int 10)) (.str "0") (.str "")],
        .collab .Serial_print [.field .second e] ] := rfl

theorem build_debug_datetime {σ : Type} (printf : Bool) (e : Expr σ) :
    build ⟨true, printf, true⟩ [.facade (.debug_datetime e)] = .ok
      [ .collab .Serial_print [.field .year e],
        .collab .Serial_print [.str "-"],
        .collab .Serial_print [.cond (.lt (.field .month e) (.int 10)) (.str "0") (.str "")],
        .collab .Serial_print [.field .month e],
        .collab .Serial_print [.str "-"],
        .collab .Serial_print [.cond (.lt (.field .day e) (.int 10)) (.str "0") (.str "")],
        .collab .Serial_print [.field .day e],
        .collab .Serial_print [.chr ' '],
        .collab .Serial_print [.cond (.lt (.field .hour e) (.int 10)) (.str "0") (.str "")],
        .collab .Serial_print [.field .hour e],
        .collab .Serial_print [.chr ':'],
        .collab .Serial_print [.cond (.lt (.field .minute e) (.int 10)) (.str "0") (.str "")],
        .collab .Serial_print [.field .minute e],
        .collab .Serial_print [.chr ':'],
        .collab .Serial_print [.cond (.lt (.field .second e) (.int 10)) (.str "0") (.str "")],
        .collab .Serial_print [.field .second e] ] := rfl

/-- The rescanning bound is never the reason a build fails: an expansion at
`rescanDepth` is complete or names a facade operation with no definition. -/
theorem expandCall_depth_suffices {σ : Type} (cfg : Config) (c : Call σ) :
    expandCall cfg rescanDepth c ≠ .error .depth := by
  rcases cfg with ⟨_ | _, _ | _, _ | _⟩ <;> cases c <;> exact fun h => nomatch h

/-! ## Date and time output for an argument that yields one timestamp -/

theorem yields_int {σ : Type} (cal : Calendar) (t : Int) : Yields cal (.int t : Expr σ) t :=
  fun m => ⟨m, rfl⟩

theorem emitsAll_debug_date {σ : Type} (cal : Calendar) (e : Expr σ) (t : Int)
    (h : Yields cal e t) :
    EmitsAll cal
      [ .collab .Serial_print [.field .year e],
        .collab .Serial_print [.str "-"],
        .collab .Serial_print [.cond (.lt (.field .month e) (.int 10)) (.str "0") (.str "")],
        .collab .Serial_print [.field .month e],
        .collab .Serial_print [.str "-"],
        .collab .Serial_print [.cond (.lt (.field .day e) (.int 10)) (.str "0") (.str "")],
        .collab .Serial_print [.field .day e] ]
      (dateText cal t t t t t) := by
  have key :=
    emitsAll_cons cal (emits_print_field cal e t .year h) <|
    emitsAll_cons cal (emits_print_str cal "-") <|
    emitsAll_cons cal (emits_print_pad cal e t .month h) <|
    emitsAll_cons cal (emits_print_field cal e t .month h) <|
    emitsAll_cons cal (emits_print_str cal "-") <|
    emitsAll_cons cal (emits_print_pad cal e t .day h) <|
    emitsAll_cons cal (emits_print_field cal e t .day h) <|
    emitsAll_nil cal
  simpa [dateText, padText, Calendar.get] using key

theorem emitsAll_debug_time {σ : Type} (cal : Calendar) (e : Expr σ) (t : Int)
    (h : Yields cal e t) :
    EmitsAll cal
      [ .collab .Serial_print [.cond (.lt (.field .hour e) (.int 10)) (.str "0") (.str "")],
        .collab .Serial_print [.field .hour e],
        .collab .Serial_print [.chr ':'],
        .collab .Serial_print [.cond (.lt (.field .minute e) (.int 10)) (.str "0") (.str "")],
        .collab .Serial_print [.field .minute e],
        .collab .Serial_print [.chr ':'],
        .collab .Serial_print [.cond (.lt (.field .second e) (.int 10)) (.str "0") (.str "")],
        .collab .Serial_print [.field .second e] ]
      (timeText cal t t t t t t) := by
  have key :=
    emitsAll_cons cal (emits_print_pad cal e t .hour h) <|
    emitsAll_cons cal (emits_print_field cal e t .hour h) <|
    emitsAll_cons cal (emits_print_chr cal ':') <|
    emitsAll_cons cal (emits_print_pad cal e t .minute h) <|
    emitsAll_cons cal (emits_print_field cal e t .minute h) <|
    emitsAll_cons cal (emits_print_chr cal ':') <|
    emitsAll_cons cal (emits_print_pad cal e t .second h) <|
    emitsAll_cons cal (emits_print_field cal e t .second h) <|
    emitsAll_nil cal
  simpa [timeText, padText, Calendar.get] using key

theorem output_of_emitsAll {σ : Type} (cal : Calendar) (cfg : Config) (p : List (Src σ))
    (ss : List (Stmt σ)) (out : List Char) (s : σ)
    (hb : build cfg p = .ok ss) (he : EmitsAll cal ss out) :
    output cal cfg p s = some out := by
  obtain ⟨m1, h1, e1⟩ := he (Machine.start s)
  have e2 : m1.sink = out := by simpa [Machine.start] using e1
  simp only [output, run, hb, h1, Option.map_some', e2]

theorem output_debug_date {σ : Type} (cal : Calendar) (printf : Bool) (e : Expr σ) (s : σ)
    (t : Int) (he : Yields cal e t) :
    output cal ⟨true, printf, true⟩ [.facade (.debug_date e)] s
      = some (dateText cal t t t t t) :=
  output_of_emitsAll cal _ _ _ _ s (build_debug_date printf e) (emitsAll_debug_date cal e t he)

theorem output_debug_time {σ : Type} (cal : Calendar) (printf : Bool) (e : Expr σ) (s : σ)
    (t : Int) (he : Yields cal e t) :
    output cal ⟨true, printf, true⟩ [.facade (.debug_time e)] s
      = some (timeText cal t t t t t t) :=
  output_of_emitsAll cal _ _ _ _ s (build_debug_time printf e) (emitsAll_debug_time cal e t he)

theorem output_debug_datetime {σ : Type} (cal : Calendar) (printf : Bool) (e : Expr σ) (s : σ)
    (t : Int) (he : Yields cal e t) :
    output cal ⟨true, printf, true⟩ [.facade (.debug_datetime e)] s
      = some (dateText cal t t t t t ++ ' ' :: timeText cal t t t t t t) := by
  have hall := emitsAll_append cal (emitsAll_debug_date cal e t he)
    (emitsAll_cons cal (emits_print_chr cal ' ') (emitsAll_debug_time cal e t he))
  have h := output_of_emitsAll cal _ _ _ _ s (build_debug_datetime printf e) hall
  simpa using h

/-! ## The written text against the spec wording -/

theorem pad_two_digits (n : Nat) (h : n < 100) :
    padText (n : Int) ++ printVal (.int (n : Int)) = specTwoDigits n := by
  rw [printVal_ofNat, padText]
  by_cases h10 : n < 10
  · have : (n : Int) < 10 := by omega
    rw [if_pos this, printNumber_one_digit n h10]
    simp [specTwoDigits, h10]
  · have : ¬ (n : Int) < 10 := by omega
    rw [if_neg this, printNumber_two_digits n (by omega) h]
    simp [specTwoDigits, h10]

theorem pad_two_digits_append (n : Nat) (h : n < 100) (rest : List Char) :
    padText (n : Int) ++ (printVal (.int (n : Int)) ++ rest) = specTwoDigits n ++ rest := by
  rw [← List.append_assoc, pad_two_digits n h]

theorem dateText_eq_specDate (cal : Calendar) (t : Int) (y m d : Nat)
    (hy : cal.year t = y) (hm : cal.month t = m) (hd : cal.day t = d)
    (hy1 : 1000 ≤ y) (hy2 : y ≤ 9999) (hm2 : m ≤ 12) (hd2 : d ≤ 31) :
    dateText cal t t t t t = specDate y m d := by
  rw [dateText, hy, hm, hd, printVal_ofNat, printNumber_four_digits y hy1 (by omega),
    pad_two_digits_append m (by omega), pad_two_digits d (by omega)]
  simp [specDate, specYear]

theorem timeText_eq_specTime (cal : Calendar) (t : Int) (h mi sec : Nat)
    (hh : cal.hour t = h) (hmi : cal.minute t = mi) (hs : cal.second t = sec)
    (hh2 : h ≤ 23) (hmi2 : mi ≤ 59) (hs2 : sec ≤ 59) :
    timeText cal t t t t t t = specTime h mi sec := by
  rw [timeText, hh, hmi, hs, pad_two_digits_append h (by omega),
    pad_two_digits_append mi (by omega), pad_two_digits sec (by omega)]
  simp [specTime]

theorem specDate_length (y m d : Nat) : (specDate y m d).length = 10 := by
  simp [specDate, specYear, specTwoDigits]
  split <;> split <;> rfl

theorem specTime_length (h mi sec : Nat) : (specTime h mi sec).length = 8 := by
  simp [specTime, specTwoDigits]
  split <;> split <;> split <;> rfl

/-! ## Execution with an argument that changes between evaluations -/

theorem exec_print_field_ts {σ : Type} (cal : Calendar) (f : σ → Int × σ) (fld : Field)
    (m : Machine σ) :
    exec cal (.collab .Serial_print [.field fld (timestampExpr f)]) m
      = some { prog := (f m.prog).2,
               trace := m.trace ++ [⟨.Serial_print, [.int (cal.get fld (f m.prog).1)]⟩],
               sink := m.sink ++ printVal (.int (cal.get fld (f m.prog).1)),
               evals := m.evals ++ [.int (f m.prog).1] } := by
  simp [exec, evalArgs, eval, timestampExpr, Val.asInt, sinkWrite]

theorem exec_print_pad_ts {σ : Type} (cal : Calendar) (f : σ → Int × σ) (fld : Field)
    (m : Machine σ) :
    exec cal (.collab .Serial_print
        [.cond (.lt (.field fld (timestampExpr f)) (.int 10)) (.str "0") (.str "")]) m
      = some { prog := (f m.prog).2,
               trace := m.trace ++ [⟨.Serial_print,
                  [.str (if cal.get fld (f m.prog).1 < 10 then "0" else "")]⟩],
               sink := m.sink ++ padText (cal.get fld (f m.prog).1),
               evals := m.evals ++ [.int (f m.prog).1] } := by
  by_cases h : cal.get fld (f m.prog).1 < 10
  · simp [exec, evalArgs, eval, timestampExpr, Val.asInt, sinkWrite, h, printVal, padText]
  · simp [exec, evalArgs, eval, timestampExpr, Val.asInt, sinkWrite, h, printVal, padText]

theorem exec_print_str {σ : Type} (cal : Calendar) (s : String) (m : Machine σ) :
    exec cal (.collab .Serial_print [.str s]) m
      = some { m with trace := m.trace ++ [⟨.Serial_print, [.str s]⟩],
                      sink := m.sink ++ s.toList } := by
  simp [exec, evalArgs, eval, sinkWrite, printVal]

theorem exec_print_chr {σ : Type} (cal : Calendar) (c : Char) (m : Machine σ) :
    exec cal (.collab .Serial_print [.chr c]) m
      = some { m with trace := m.trace ++ [⟨.Serial_print, [.chr c]⟩],
                      sink := m.sink ++ [c] } := by
  simp [exec, evalArgs, eval, sinkWrite, printVal]

/-- One run of `debug_date`: the five evaluations of the argument in order
and the text written from them. -/
theorem date_evaluations {σ : Type} (cal : Calendar) (printf : Bool) (f : σ → Int × σ) (s : σ) :
    ∃ md t1 t2 t3 t4 t5,
      run cal ⟨true, printf, true⟩ [.facade (.debug_date (timestampExpr f))]
        (Machine.start s) = some md
      ∧ md.evals = [.int t1, .int t2, .int t3, .int t4, .int t5]
      ∧ md.sink = dateText cal t1 t2 t3 t4 t5 := by
  simp only [run, build_debug_date, execAll, exec_print_field_ts, exec_print_pad_ts,
    exec_print_str]
  refine ⟨_, (f s).1, (f (f s).2).1, (f (f (f s).2).2).1, (f (f (f (f s).2).2).2).1, (f (f (f (f (f s).2).2).2).2).1,
    rfl, ?_, ?_⟩
  · simp only [Machine.start, List.nil_append, List.cons_append, List.append_assoc]
  · simp [Machine.start, dateText, Calendar.get]

/-- One run of `debug_time`: the six evaluations of the argument in order
and the text written from them. -/
theorem time_evaluations {σ : Type} (cal : Calendar) (printf : Bool) (f : σ → Int × σ) (s : σ) :
    ∃ mt t1 t2 t3 t4 t5 t6,
      run cal ⟨true, printf, true⟩ [.facade (.debug_time (timestampExpr f))]
        (Machine.start s) = some mt
      ∧ mt.evals = [.int t1, .int t2, .int t3, .int t4, .int t5, .int t6]
      ∧ mt.sink = timeText cal t1 t2 t3 t4 t5 t6 := by
  simp only [run, build_debug_time, execAll, exec_print_field_ts, exec_print_pad_ts,
    exec_print_chr]
  refine ⟨_, (f s).1, (f (f s).2).1, (f (f (f s).2).2).1, (f (f (f (f s).2).2).2).1, (f (f (f (f (f s).2).2).2).2).1, (f (f (f (f (f (f s).2).2).2).2).2).1,
    rfl, ?_, ?_⟩
  · simp only [Machine.start, List.nil_append, List.cons_append, List.append_assoc]
  · simp [Machine.start, timeText, Calendar.get]

/-- One run of `debug_datetime`: the eleven evaluations of the argument in
order and the text written from them. -/
theorem datetime_evaluations {σ : Type} (cal : Calendar) (printf : Bool) (f : σ → Int × σ)
    (s : σ) :
    ∃ mdt t1 t2 t3 t4 t5 t6 t7 t8 t9 t10 t11,
      run cal ⟨true, printf, true⟩ [.facade (.debug_datetime (timestampExpr f))]
        (Machine.start s) = some mdt
      ∧ mdt.evals = [.int t1, .int t2, .int t3, .int t4, .int t5, .int t6, .int t7, .int t8,
          .int t9, .int t10, .int t11]
      ∧ mdt.sink = dateText cal t1 t2 t3 t4 t5 ++ ' ' :: timeText cal t6 t7 t8 t9 t10 t11 := by
  simp only [run, build_debug_datetime, execAll, exec_print_field_ts, exec_print_pad_ts,
    exec_print_chr, exec_print_str]
  refine ⟨_, (f s).1, (f (f s).2).1, (f (f (f s).2).2).1, (f (f (f (f s).2).2).2).1, (f (f (f (f (f s).2).2).2).2).1, (f (f (f (f (f (f s).2).2).2).2).2).1, (f (f (f (f (f (f (f s).2).2).2).2).2).2).1, (f (f (f (f (f (f (f (f s).2).2).2).2).2).2).2).1, (f (f (f (f (f (f (f (f (f s).2).2).2).2).2).2).2).2).1, (f (f (f (f (f (f (f (f (f (f s).2).2).2).2).2).2).2).2).2).1, (f (f (f (f (f (f (f (f (f (f (f s).2).2).2).2).2).2).2).2).2).2).1,
    rfl, ?_, ?_⟩
  · simp only [Machine.start, List.nil_append, List.cons_append, List.append_assoc]
  · simp [Machine.start, dateText, timeText, Calendar.get]

/-- With `epochCalendar`, `debug_time` of a timestamp value writes eight
characters. -/
theorem epochCalendar_time_length {σ : Type} (printf : Bool) (s : σ) (t : Int) :
    ∃ out, output epochCalendar ⟨true, printf, true⟩ [.facade (.debug_time (.int t))] s = some out
      ∧ out.length = 8 := by
  have h1 : 0 ≤ t % 86400 / 3600 ∧ t % 86400 / 3600 ≤ 23 := by omega
  have h2 : 0 ≤ t % 3600 / 60 ∧ t % 3600 / 60 ≤ 59 := by omega
  have h3 : 0 ≤ t % 60 ∧ t % 60 ≤ 59 := by omega
  refine ⟨_, output_debug_time epochCalendar printf (.int t) s t (yields_int _ t), ?_⟩
  rw [timeText_eq_specTime epochCalendar t
    (t % 86400 / 3600).toNat (t % 3600 / 60).toNat (t % 60).toNat ?_ ?_ ?_ ?_ ?_ ?_]
  · exact specTime_length _ _ _
  · show t % 86400 / 3600 = _; omega
  · show t % 3600 / 60 = _; omega
  · show t % 60 = _; omega
  · omega
  · omega
  · omega

/-! ## INERT builds -/

theorem defn_inert {σ : Type} (printf timeh : Bool) (c : Call σ) :
    defn ⟨false, printf, timeh⟩ c = some [] := by
  cases c <;> rfl

theorem expandCall_inert {σ : Type} (printf timeh : Bool) (fuel : Nat) (c : Call σ) :
    expandCall ⟨false, printf, timeh⟩ (fuel + 1) c = .ok [] := by
  simp [expandCall, defn_inert]

theorem preprocess_inert {σ : Type} (printf timeh : Bool) (cfg : Config) (s : Src σ) :
    preprocess ⟨false, printf, timeh⟩ s = preprocess cfg (removeCallSites s) := by
  induction s with
  | facade c => simp [preprocess, removeCallSites, rescanDepth, expandCall_inert]
  | plain e => rfl
  | empty => rfl
  | ifThen c s ih => simp [preprocess, removeCallSites, ih]

theorem build_inert {σ : Type} (printf timeh : Bool) (cfg : Config) (p : List (Src σ)) :
    build ⟨false, printf, timeh⟩ p = build cfg (p.map removeCallSites) := by
  induction p with
  | nil => rfl
  | cons s rest ih => simp [build, ih, preprocess_inert printf timeh cfg s]

theorem run_inert_call {σ : Type} (cal : Calendar) (printf timeh : Bool) (c : Call σ)
    (m : Machine σ) : run cal ⟨false, printf, timeh⟩ [.facade c] m = some m := by
  simp [run, build, preprocess, rescanDepth, expandCall_inert, joinExpansions, execAll, exec]

theorem facadeFree_removeCallSites {σ : Type} (s : Src σ) :
    facadeFree (removeCallSites s) = true := by
  induction s with
  | facade c => rfl
  | plain e => rfl
  | empty => rfl
  | ifThen c s ih => simpa [removeCallSites, facadeFree] using ih

/-! ## ACTIVE builds: single calls -/

/-- Claim C1: in an ACTIVE build with the calendar/time capability, for a
timestamp whose year is in 1000..9999, month in 1..12 and day in 1..31,
`debug_date` sends exactly the 10 characters `YYYY-MM-DD` to the sink, month
and day with a leading `0` below 10; (2024, 3, 7) gives `2024-03-07` and
(2024, 11, 23) gives `2024-11-23`. -/
theorem C1_debug_date_format {σ : Type} (cal : Calendar) (printf : Bool) (e : Expr σ)
    (s : σ) (t : Int) (y m d : Nat)
    (he : Yields cal e t)
    (hy : cal.year t = y) (hm : cal.month t = m) (hd : cal.day t = d)
    (hy1 : 1000 ≤ y) (hy2 : y ≤ 9999) (_hm1 : 1 ≤ m) (hm2 : m ≤ 12)
    (_hd1 : 1 ≤ d) (hd2 : d ≤ 31) :
    output cal ⟨true, printf, true⟩ [.facade (.debug_date e)] s = some (specDate y m d)
      ∧ (specDate y m d).length = 10
      ∧ specDate 2024 3 7 = "2024-03-07".toList
      ∧ specDate 2024 11 23 = "2024-11-23".toList := by
  refine ⟨?_, specDate_length y m d, by decide, by decide⟩
  rw [output_debug_date cal printf e s t he,
    dateText_eq_specDate cal t y m d hy hm hd hy1 hy2 hm2 hd2]

/-- Claim C1 at the timestamps 2024-03-07 09:05:00 and 2024-11-23 23:59:59
of `epochCalendar`. -/
theorem C1_debug_date_format_witness :
    (output epochCalendar ⟨true, true, true⟩
        [.facade (.debug_date (.int 1709802300))] () = some (specDate 2024 3 7)
      ∧ (specDate 2024 3 7).length = 10
      ∧ specDate 2024 3 7 = "2024-03-07".toList
      ∧ specDate 2024 11 23 = "2024-11-23".toList)
    ∧ (output epochCalendar ⟨true, false, true⟩
        [.facade (.debug_date (.int 1732406399))] () = some (specDate 2024 11 23)
      ∧ (specDate 2024 11 23).length = 10
      ∧ specDate 2024 3 7 = "2024-03-07".toList
      ∧ specDate 2024 11 23 = "2024-11-23".toList) :=
  ⟨C1_debug_date_format epochCalendar true (.int 1709802300) () 1709802300 2024 3 7
      (yields_int epochCalendar 1709802300) (by decide) (by decide) (by decide)
      (by decide) (by decide) (by decide) (by decide) (by decide) (by decide),
   C1_debug_date_format epochCalendar false (.int 1732406399) () 1732406399 2024 11 23
      (yields_int epochCalendar 1732406399) (by decide) (by decide) (by decide)
      (by decide) (by decide) (by decide) (by decide) (by decide) (by decide)⟩

/-- Claim C2: in an ACTIVE build with the calendar/time capability, for a
timestamp whose hour is in 0..23 and minute and second in 0..59,
`debug_time` sends exactly the 8 characters `HH:MM:SS` to the sink, each
field with a leading `0` below 10; (9, 5, 0) gives `09:05:00` and
(23, 59, 59) gives `23:59:59`. -/
theorem C2_debug_time_format {σ : Type} (cal : Calendar) (printf : Bool) (e : Expr σ)
    (s : σ) (t : Int) (h mi sec : Nat)
    (he : Yields cal e t)
    (hh : cal.hour t = h) (hmi : cal.minute t = mi) (hs : cal.second t = sec)
    (hh2 : h ≤ 23) (hmi2 : mi ≤ 59) (hs2 : sec ≤ 59) :
    output cal ⟨true, printf, true⟩ [.facade (.debug_time e)] s = some (specTime h mi sec)
      ∧ (specTime h mi sec).length = 8
      ∧ specTime 9 5 0 = "09:05:00".toList
      ∧ specTime 23 59 59 = "23:59:59".toList := by
  refine ⟨?_, specTime_length h mi sec, by decide, by decide⟩
  rw [output_debug_time cal printf e s t he,
    timeText_eq_specTime cal t h mi sec hh hmi hs hh2 hmi2 hs2]

/-- Claim C2 at the timestamps 2024-03-07 09:05:00 and 2024-11-23 23:59:59
of `epochCalendar`. -/
theorem C2_debug_time_format_witness :
    (output epochCalendar ⟨true, true, true⟩
        [.facade (.debug_time (.int 1709802300))] () = some (specTime 9 5 0)
      ∧ (specTime 9 5 0).length = 8
      ∧ specTime 9 5 0 = "09:05:00".toList
      ∧ specTime 23 59 59 = "23:59:59".toList)
    ∧ (output epochCalendar ⟨true, false, true⟩
        [.facade (.debug_time (.int 1732406399))] () = some (specTime 23 59 59)
      ∧ (specTime 23 59 59).length = 8
      ∧ specTime 9 5 0 = "09:05:00".toList
      ∧ specTime 23 59 59 = "23:59:59".toList) :=
  ⟨C2_debug_time_format epochCalendar true (.int 1709802300) () 1709802300 9 5 0
      (yields_int epochCalendar 1709802300) (by decide) (by decide) (by decide)
      (by decide) (by decide) (by decide),
   C2_debug_time_format epochCalendar false (.int 1732406399) () 1732406399 23 59 59
      (yields_int epochCalendar 1732406399) (by decide) (by decide) (by decide)
      (by decide) (by decide) (by decide)⟩

/-- Claim C3: in an ACTIVE build with the calendar/time capability, for an
argument that is a timestamp value, `debug_datetime` is preprocessed to the
statements of `debug_date`, one `Serial.print(' ')` and the statements of
`debug_time`, and its output is the output of `debug_date`, one space, the
output of `debug_time`, nothing else. -/
theorem C3_debug_datetime_composition {σ : Type} (cal : Calendar) (printf : Bool)
    (e : Expr σ) (s : σ) (t : Int) (he : Yields cal e t) :
    ∃ (sd st : List (Stmt σ)) (od ot : List Char),
      build ⟨true, printf, true⟩ [.facade (.debug_date e)] = .ok sd
      ∧ build ⟨true, printf, true⟩ [.facade (.debug_time e)] = .ok st
      ∧ build ⟨true, printf, true⟩ [.facade (.debug_datetime e)]
          = .ok (sd ++ .collab .Serial_print [.chr ' '] :: st)
      ∧ output cal ⟨true, printf, true⟩ [.facade (.debug_date e)] s = some od
      ∧ output cal ⟨true, printf, true⟩ [.facade (.debug_time e)] s = some ot
      ∧ output cal ⟨true, printf, true⟩ [.facade (.debug_datetime e)] s
          = some (od ++ ' ' :: ot) :=
  ⟨_, _, _, _, build_debug_date printf e, build_debug_time printf e,
    build_debug_datetime printf e, output_debug_date cal printf e s t he,
    output_debug_time cal printf e s t he, output_debug_datetime cal printf e s t he⟩

/-- Claim C3 at the timestamp 2024-03-07 09:05:00 of `epochCalendar`. -/
theorem C3_debug_datetime_composition_witness :
    ∃ (sd st : List (Stmt Unit)) (od ot : List Char),
      build ⟨true, true, true⟩ [.facade (.debug_date (.int 1709802300))] = .ok sd
      ∧ build ⟨true, true, true⟩ [.facade (.debug_time (.int 1709802300))] = .ok st
      ∧ build ⟨true, true, true⟩ [.facade (.debug_datetime (.int 1709802300))]
          = .ok (sd ++ .collab .Serial_print [.chr ' '] :: st)
      ∧ output epochCalendar ⟨true, true, true⟩
          [.facade (.debug_date (.int 1709802300))] () = some od
      ∧ output epochCalendar ⟨true, true, true⟩
          [.facade (.debug_time (.int 1709802300))] () = some ot
      ∧ output epochCalendar ⟨true, true, true⟩
          [.facade (.debug_datetime (.int 1709802300))] () = some (od ++ ' ' :: ot) :=
  C3_debug_datetime_composition epochCalendar true (.int 1709802300) () 1709802300
    (yields_int epochCalendar 1709802300)

/-- Claim C4: in an INERT build, whatever the capability switches, every
facade call has the empty replacement list and expands to nothing; running
it leaves the machine as it was (no collaborator call, no character
written, no argument evaluated); and a program builds and runs exactly as
the program with every facade call site removed does in any
configuration. -/
theorem C4_inert_elision (printf timeh : Bool) :
    (∀ (σ : Type) (c : Call σ), defn ⟨false, printf, timeh⟩ c = some [])
    ∧ (∀ (σ : Type) (c : Call σ), expandCall ⟨false, printf, timeh⟩ rescanDepth c = .ok [])
    ∧ (∀ (σ : Type) (cal : Calendar) (c : Call σ) (m : Machine σ),
        run cal ⟨false, printf, timeh⟩ [.facade c] m = some m)
    ∧ (∀ (σ : Type) (p : List (Src σ)), (p.map removeCallSites).all facadeFree = true)
    ∧ (∀ (σ : Type) (cfg : Config) (p : List (Src σ)),
        build ⟨false, printf, timeh⟩ p = build cfg (p.map removeCallSites))
    ∧ (∀ (σ : Type) (cal : Calendar) (cfg : Config) (p : List (Src σ)) (m : Machine σ),
        run cal ⟨false, printf, timeh⟩ p m = run cal cfg (p.map removeCallSites) m) := by
  refine ⟨fun σ c => defn_inert printf timeh c, fun σ c => expandCall_inert printf timeh _ c,
    fun σ cal c m => run_inert_call cal printf timeh c m, ?_,
    fun σ cfg p => build_inert printf timeh cfg p, ?_⟩
  · intro σ p
    simp [List.all_eq_true, facadeFree_removeCallSites]
  · intro σ cal cfg p m
    simp only [run, build_inert printf timeh cfg p]

/-- Where `debug_delay` is defined: in an ACTIVE build with the
calendar/time switch it expands to the one call `delay(ms)` and running it
makes that call with the value of `ms`; in an INERT build it expands to
nothing and makes no call. -/
theorem run_debug_delay {σ : Type} (cal : Calendar) (printf timeh : Bool)
    (ms : Expr σ) (m : Machine σ) (v : Val) (m1 : Machine σ)
    (h : eval cal ms m = some (v, m1)) :
    build ⟨true, printf, true⟩ [.facade (.debug_delay ms)] = .ok [.collab .delay [ms]]
    ∧ run cal ⟨true, printf, true⟩ [.facade (.debug_delay ms)] m
        = some { m1 with trace := m1.trace ++ [⟨.delay, [v]⟩] }
    ∧ build ⟨false, printf, timeh⟩ [.facade (.debug_delay ms)] = .ok [.empty]
    ∧ run cal ⟨false, printf, timeh⟩ [.facade (.debug_delay ms)] m = some m := by
  have hb : build ⟨true, printf, true⟩ [.facade (.debug_delay ms)]
      = .ok [.collab .delay [ms]] := rfl
  refine ⟨hb, ?_, ?_, run_inert_call cal printf timeh _ m⟩
  · simp [run, hb, execAll, exec, evalArgs, h, sinkWrite]
  · simp [build, preprocess, rescanDepth, expandCall, defn, joinExpansions]

/-- Claim C6 at its failing input: in an ACTIVE build without the
calendar/time switch, with or without peripheral diagnostics,
`debug_delay` has no definition, so `debug_delay(100);` does not build and
no `delay(100)` call is made; the `#define` stands inside the
`#ifdef _Time_h` block although `delay(ms)` uses nothing of the time
library.  With the calendar/time switch the same statement expands to
exactly the one call `delay(100)` and makes it once, and in the INERT
builds it makes no call. -/
theorem C6_debug_delay_undefined_without_time :
    defn ⟨true, true, false⟩ (.debug_delay (.int 100) : Call Unit) = none
    ∧ defn ⟨true, false, false⟩ (.debug_delay (.int 100) : Call Unit) = none
    ∧ build ⟨true, true, false⟩ [(.facade (.debug_delay (.int 100)) : Src Unit)]
        = .error (.unresolved .debug_delay)
    ∧ build ⟨true, false, false⟩ [(.facade (.debug_delay (.int 100)) : Src Unit)]
        = .error (.unresolved .debug_delay)
    ∧ run epochCalendar ⟨true, true, false⟩ [(.facade (.debug_delay (.int 100)) : Src Unit)]
        (Machine.start ()) = none
    ∧ run epochCalendar ⟨true, false, false⟩ [(.facade (.debug_delay (.int 100)) : Src Unit)]
        (Machine.start ()) = none
    ∧ build ⟨true, false, true⟩ [(.facade (.debug_delay (.int 100)) : Src Unit)]
        = .ok [.collab .delay [.int 100]]
    ∧ run epochCalendar ⟨true, false, true⟩ [(.facade (.debug_delay (.int 100)) : Src Unit)]
        (Machine.start ())
        = some { prog := (), sink := [], evals := [], trace := [⟨.delay, [.int 100]⟩] }
    ∧ run epochCalendar ⟨true, true, true⟩ [(.facade (.debug_delay (.int 100)) : Src Unit)]
        (Machine.start ())
        = some { prog := (), sink := [], evals := [], trace := [⟨.delay, [.int 100]⟩] }
    ∧ run epochCalendar ⟨false, false, false⟩ [(.facade (.debug_delay (.int 100)) : Src Unit)]
        (Machine.start ()) = some (Machine.start ())
    ∧ run epochCalendar ⟨false, true, true⟩ [(.facade (.debug_delay (.int 100)) : Src Unit)]
        (Machine.start ()) = some (Machine.start ()) :=
  ⟨rfl, rfl, rfl, rfl, rfl, rfl, rfl, rfl, rfl, rfl, rfl⟩

/-- Claim C7 at its failing input: in an ACTIVE build without peripheral
diagnostics the replacement list of `debug_begin` still ends in
`debug_begin_nrf24()`, which has no definition there, so `debug_begin();`
does not build; with peripheral diagnostics it makes the two calls
`Serial.begin(9600)` and `printf_begin()`, once each. -/
theorem C7_debug_begin_without_printf_unresolved :
    defn ⟨true, false, false⟩ (.debug_begin : Call Unit)
        = some [.collab .Serial_begin [.int 9600], .facade .debug_begin_nrf24]
    ∧ defn ⟨true, false, false⟩ (.debug_begin_nrf24 : Call Unit) = none
    ∧ build ⟨true, false, false⟩ [(.facade .debug_begin : Src Unit)]
        = .error (.unresolved .debug_begin_nrf24)
    ∧ build ⟨true, false, true⟩ [(.facade .debug_begin : Src Unit)]
        = .error (.unresolved .debug_begin_nrf24)
    ∧ run epochCalendar ⟨true, false, false⟩ [(.facade .debug_begin : Src Unit)]
        (Machine.start ()) = none
    ∧ run epochCalendar ⟨true, true, false⟩ [(.facade .debug_begin : Src Unit)]
        (Machine.start ())
        = some { prog := (), sink := [], evals := [],
                 trace := [⟨.Serial_begin, [.int 9600]⟩, ⟨.printf_begin, []⟩] } :=
  ⟨rfl, rfl, rfl, rfl, rfl, rfl⟩

/-- Claim C8 fails: in the INERT build with both capability switches off,
`debug_nrf24`, `debug_date`, `debug_time` and `debug_datetime` are defined
(as nothing) and calls of them build. -/
theorem C8_counterexample :
    defn ⟨false, false, false⟩ (.debug_nrf24 (.int 0) : Call Unit) = some []
    ∧ defn ⟨false, false, false⟩ (.debug_date (.int 0) : Call Unit) = some []
    ∧ defn ⟨false, false, false⟩ (.debug_time (.int 0) : Call Unit) = some []
    ∧ defn ⟨false, false, false⟩ (.debug_datetime (.int 0) : Call Unit) = some []
    ∧ build ⟨false, false, false⟩ [(.facade (.debug_nrf24 (.int 0)) : Src Unit)] = .ok [.empty]
    ∧ build ⟨false, false, false⟩ [(.facade (.debug_date (.int 0)) : Src Unit)] = .ok [.empty] :=
  ⟨rfl, rfl, rfl, rfl, rfl, rfl⟩

/-- Claim C8 as amended: in every ACTIVE build `debug_nrf24` is defined
exactly when peripheral diagnostics is compiled in, and `debug_date`,
`debug_time`, `debug_datetime` exactly when calendar/time is compiled in; a
call with the switch off does not build, the name being unresolved.  In
every INERT build all facade operations are defined whatever the
switches. -/
theorem C8_gated_operations_active {σ : Type} (printf timeh : Bool) (e : Expr σ) :
    (defn ⟨true, printf, timeh⟩ (.debug_nrf24 e)).isSome = printf
    ∧ (defn ⟨true, printf, timeh⟩ (.debug_date e)).isSome = timeh
    ∧ (defn ⟨true, printf, timeh⟩ (.debug_time e)).isSome = timeh
    ∧ (defn ⟨true, printf, timeh⟩ (.debug_datetime e)).isSome = timeh
    ∧ build ⟨true, false, timeh⟩ [.facade (.debug_nrf24 e)] = .error (.unresolved .debug_nrf24)
    ∧ build ⟨true, printf, false⟩ [.facade (.debug_date e)] = .error (.unresolved .debug_date)
    ∧ build ⟨true, printf, false⟩ [.facade (.debug_time e)] = .error (.unresolved .debug_time)
    ∧ build ⟨true, printf, false⟩ [.facade (.debug_datetime e)]
        = .error (.unresolved .debug_datetime)
    ∧ (∀ c : Call σ, (defn ⟨false, printf, timeh⟩ c).isSome = true) := by
  refine ⟨?_, ?_, ?_, ?_, rfl, rfl, rfl, rfl, ?_⟩
  · cases printf <;> rfl
  · cases timeh <;> rfl
  · cases timeh <;> rfl
  · cases timeh <;> rfl
  · intro c; cases c <;> rfl

/-- Claim C9 at its failing input: in the ACTIVE build with all
capabilities, `if (0) debug_begin();` is preprocessed to
`if (0) Serial.begin(9600); printf_begin();` and calls `printf_begin`; at
the timestamp 2024-03-07 09:05:00 `if (0) debug_date(t);` writes `-03-07`,
`if (0) debug_time(t);` writes `9:05:00` and `if (0) debug_datetime(t);`
writes `-03-07 09:05:00`. -/
theorem C9_unbraced_if_leaks :
    build ⟨true, true, true⟩ [(.ifThen (.int 0) (.facade .debug_begin) : Src Unit)]
        = .ok [.ifThen (.int 0) (.collab .Serial_begin [.int 9600]),
               .collab .printf_begin []]
    ∧ run epochCalendar ⟨true, true, true⟩
        [(.ifThen (.int 0) (.facade .debug_begin) : Src Unit)] (Machine.start ())
        = some { prog := (), sink := [], evals := [], trace := [⟨.printf_begin, []⟩] }
    ∧ output epochCalendar ⟨true, true, true⟩
        [(.ifThen (.int 0) (.facade (.debug_date (.int 1709802300))) : Src Unit)] ()
        = some "-03-07".toList
    ∧ output epochCalendar ⟨true, true, true⟩
        [(.ifThen (.int 0) (.facade (.debug_time (.int 1709802300))) : Src Unit)] ()
        = some "9:05:00".toList
    ∧ output epochCalendar ⟨true, true, true⟩
        [(.ifThen (.int 0) (.facade (.debug_datetime (.int 1709802300))) : Src Unit)] ()
        = some "-03-07 09:05:00".toList :=
  ⟨rfl, rfl, by decide, by decide, by decide⟩

/-- Claim C10 fails as worded ("only when"): `debug_date` of a clock read
that moves on by one second at each evaluation, started at 2024-03-07
09:05:00, evaluates its argument to five different timestamps and still
writes `2024-03-07`, the formatting of the single instant 1709802300. -/
theorem C10_counterexample :
    (run epochCalendar ⟨true, true, true⟩ [.facade (.debug_date tickingClock)]
        (Machine.start 1709802300)).map (fun m => m.evals)
      = some [.int 1709802300, .int 1709802301, .int 1709802302, .int 1709802303,
              .int 1709802304]
    ∧ output epochCalendar ⟨true, true, true⟩ [.facade (.debug_date tickingClock)] 1709802300
      = some "2024-03-07".toList
    ∧ output epochCalendar ⟨true, true, true⟩
        [.facade (.debug_date (.int 1709802300))] (1709802300 : Int)
      = some "2024-03-07".toList := by
  decide

/-- Claim C10 as amended: in an ACTIVE build with the calendar/time
capability one run of `debug_date(t)` evaluates `t` 5 times (year, month
twice, day twice), of `debug_time(t)` 6 times (hour, minute, second twice
each) and of `debug_datetime(t)` 11 times, each field being taken from its
own evaluation; whenever all these evaluations yield the same timestamp the
output is the formatting of that instant; and when they differ the output
can be the formatting of no instant (`09:05:010` for a clock read that
moves on between the evaluations). -/
theorem C10_argument_evaluations {σ : Type} (cal : Calendar) (printf : Bool)
    (f : σ → Int × σ) (s : σ) :
    (∃ md t1 t2 t3 t4 t5,
      run cal ⟨true, printf, true⟩ [.facade (.debug_date (timestampExpr f))]
        (Machine.start s) = some md
      ∧ md.evals = [.int t1, .int t2, .int t3, .int t4, .int t5]
      ∧ md.evals.length = 5
      ∧ md.sink = dateText cal t1 t2 t3 t4 t5
      ∧ ∀ t, (∀ v ∈ md.evals, v = .int t) →
          some md.sink = output cal ⟨true, printf, true⟩ [.facade (.debug_date (.int t))] s)
    ∧ (∃ mt t1 t2 t3 t4 t5 t6,
      run cal ⟨true, printf, true⟩ [.facade (.debug_time (timestampExpr f))]
        (Machine.start s) = some mt
      ∧ mt.evals = [.int t1, .int t2, .int t3, .int t4, .int t5, .int t6]
      ∧ mt.evals.length = 6
      ∧ mt.sink = timeText cal t1 t2 t3 t4 t5 t6
      ∧ ∀ t, (∀ v ∈ mt.evals, v = .int t) →
          some mt.sink = output cal ⟨true, printf, true⟩ [.facade (.debug_time (.int t))] s)
    ∧ (∃ mdt t1 t2 t3 t4 t5 t6 t7 t8 t9 t10 t11,
      run cal ⟨true, printf, true⟩ [.facade (.debug_datetime (timestampExpr f))]
        (Machine.start s) = some mdt
      ∧ mdt.evals = [.int t1, .int t2, .int t3, .int t4, .int t5, .int t6, .int t7, .int t8,
          .int t9, .int t10, .int t11]
      ∧ mdt.evals.length = 11
      ∧ mdt.sink = dateText cal t1 t2 t3 t4 t5 ++ ' ' :: timeText cal t6 t7 t8 t9 t10 t11
      ∧ ∀ t, (∀ v ∈ mdt.evals, v = .int t) →
          some mdt.sink
            = output cal ⟨true, printf, true⟩ [.facade (.debug_datetime (.int t))] s)
    ∧ (output epochCalendar ⟨true, printf, true⟩ [.facade (.debug_time tickingClock)]
          (1709802305 : Int) = some "09:05:010".toList
      ∧ ∀ t : Int, output epochCalendar ⟨true, printf, true⟩
          [.facade (.debug_time (.int t))] (1709802305 : Int) ≠ some "09:05:010".toList) := by
  refine ⟨?_, ?_, ?_, ?_, ?_⟩
  · obtain ⟨md, t1, t2, t3, t4, t5, hr, he, hs⟩ := date_evaluations cal printf f s
    refine ⟨md, t1, t2, t3, t4, t5, hr, he, by simp [he], hs, ?_⟩
    intro t ht
    simp only [he, List.mem_cons, List.mem_singleton, forall_eq_or_imp, forall_eq,
      Val.int.injEq, List.not_mem_nil, IsEmpty.forall_iff, implies_true, and_true] at ht
    obtain ⟨h1, h2, h3, h4, h5⟩ := ht
    rw [output_debug_date cal printf (.int t) s t (yields_int cal t), hs, h1, h2, h3, h4, h5]
  · obtain ⟨mt, t1, t2, t3, t4, t5, t6, hr, he, hs⟩ := time_evaluations cal printf f s
    refine ⟨mt, t1, t2, t3, t4, t5, t6, hr, he, by simp [he], hs, ?_⟩
    intro t ht
    simp only [he, List.mem_cons, List.mem_singleton, forall_eq_or_imp, forall_eq,
      Val.int.injEq, List.not_mem_nil, IsEmpty.forall_iff, implies_true, and_true] at ht
    obtain ⟨h1, h2, h3, h4, h5, h6⟩ := ht
    rw [output_debug_time cal printf (.int t) s t (yields_int cal t), hs, h1, h2, h3, h4, h5, h6]
  · obtain ⟨mdt, t1, t2, t3, t4, t5, t6, t7, t8, t9, t10, t11, hr, he, hs⟩ :=
      datetime_evaluations cal printf f s
    refine ⟨mdt, t1, t2, t3, t4, t5, t6, t7, t8, t9, t10, t11, hr, he, by simp [he], hs, ?_⟩
    intro t ht
    simp only [he, List.mem_cons, List.mem_singleton, forall_eq_or_imp, forall_eq,
      Val.int.injEq, List.not_mem_nil, IsEmpty.forall_iff, implies_true, and_true] at ht
    obtain ⟨h1, h2, h3, h4, h5, h6, h7, h8, h9, h10, h11⟩ := ht
    rw [output_debug_datetime cal printf (.int t) s t (yields_int cal t), hs,
      h1, h2, h3, h4, h5, h6, h7, h8, h9, h10, h11]
  · cases printf <;> decide
  · intro t ht
    obtain ⟨out, h1, h2⟩ := epochCalendar_time_length printf (1709802305 : Int) t
    rw [ht] at h1
    cases h1
    simp at h2

/-- Claim C10 as amended, at an argument that yields 2024-03-07 09:05:00 at
each of its five evaluations by `debug_date`: the output is the formatting
of that instant. -/
theorem C10_argument_evaluations_witness :
    ∃ md, run epochCalendar ⟨true, true, true⟩
        [.facade (.debug_date (timestampExpr (fun s : Unit => ((1709802300 : Int), s))))]
        (Machine.start ()) = some md
      ∧ md.evals.length = 5
      ∧ some md.sink = output epochCalendar ⟨true, true, true⟩
          [.facade (.debug_date (.int 1709802300))] ()
      ∧ md.sink = "2024-03-07".toList := by
  obtain ⟨⟨md, t1, t2, t3, t4, t5, hr, -, hl, -, hsame⟩, -⟩ :=
    C10_argument_evaluations epochCalendar true (fun s : Unit => ((1709802300 : Int), s)) ()
  have hrun : run epochCalendar ⟨true, true, true⟩
      [.facade (.debug_date (timestampExpr (fun s : Unit => ((1709802300 : Int), s))))]
      (Machine.start ())
      = some { prog := (), sink := "2024-03-07".toList,
               evals := [.int 1709802300, .int 1709802300, .int 1709802300, .int 1709802300,
                 .int 1709802300],
               trace := [⟨.Serial_print, [.int 2024]⟩, ⟨.Serial_print, [.str "-"]⟩,
                 ⟨.Serial_print, [.str "0"]⟩, ⟨.Serial_print, [.int 3]⟩,
                 ⟨.Serial_print, [.str "-"]⟩, ⟨.Serial_print, [.str "0"]⟩,
                 ⟨.Serial_print, [.int 7]⟩] } := rfl
  have hmd := Option.some.inj (hr.symm.trans hrun)
  subst hmd
  exact ⟨_, hr, hl, hsame 1709802300 (by decide), rfl⟩

end DebugFacade
